import Mathlib

/-!
# Secrets Manager secret-version data source

A shallow embedding of
`internal/service/secretsmanager/secret_version_data_source.go`
(`DataSourceSecretVersion` and `dataSourceSecretVersionRead`) together with the
properties of the read that the specification states.

Modelling conventions

* Go `*string` fields of the SDK request and response are `Option String`
  (`none` is the nil pointer, `aws.String s` is `some s`).
* `[]byte` and the Go string obtained from it by `string(b)` are both the same
  byte sequence, `List UInt8`; the conversion copies the bytes and nothing else.
* The remote call `conn.GetSecretValue` is a function from the request to either
  an error or a response; the read returns, next to the diagnostics and the
  resource data, the list of requests it issued.
* A set attribute is written through the `schema.Set` of the plugin SDK, which
  keys every element by a hash code (CRC-32 of the serialised element) and keeps
  one element per code; the hash is modelled bit by bit.
* The `log.Printf` debug line has no effect on any returned value and is not
  modelled.
-/

namespace secretsmanager

/-! ## SDK request, response and error -/

/-- The fields of `secretsmanager.GetSecretValueInput` the read fills in. -/
structure GetSecretValueInput where
  SecretId : Option String
  VersionId : Option String
  VersionStage : Option String
  deriving DecidableEq, Repr

/-- The fields of `secretsmanager.GetSecretValueOutput` the read consumes. -/
structure GetSecretValueOutput where
  ARN : Option String
  SecretBinary : List UInt8
  SecretString : Option String
  VersionId : Option String
  VersionStages : List String
  deriving DecidableEq, Repr

/-- The view of an error as a `smithy.APIError`: its code and its message. -/
structure APIError where
  ErrorCode : String
  ErrorMessage : String
  deriving DecidableEq, Repr

/-- A Go `error` returned by the client. `api` is what
`errors.As(err, &apiErr)` finds in the chain (`none` when the chain holds no
API error, for instance a transport failure); `Error` is the text of
`err.Error()`, which is what the `%s` verb prints. -/
structure GoError where
  api : Option APIError
  Error : String
  deriving DecidableEq, Repr

/-- The Secrets Manager client: the single operation the read calls. -/
structure Client where
  GetSecretValue : GetSecretValueInput → Except GoError GetSecretValueOutput

/-! ## Library helpers used by the read -/

namespace strings

/-- Go `strings.Contains s substr`: `substr` occurs in `s` as a contiguous run. -/
def Contains (s substr : String) : Bool :=
  s.data.tails.any fun t => substr.data.isPrefixOf t

end strings

namespace tfawserr

/-- Library `tfawserr.ErrCodeEquals err code`: the chain holds an API error
whose code is `code`. -/
def ErrCodeEquals (err : GoError) (code : String) : Bool :=
  match err.api with
  | some apiErr => apiErr.ErrorCode == code
  | none => false

/-- Library `tfawserr.ErrMessageContains err code message`: the chain holds an
API error whose code is `code` and whose message contains `message`. -/
def ErrMessageContains (err : GoError) (code : String) (message : String) : Bool :=
  match err.api with
  | some apiErr => apiErr.ErrorCode == code && strings.Contains apiErr.ErrorMessage message
  | none => false

end tfawserr

namespace diag

/-- Severity of a diagnostic (`diag.Severity`). -/
inductive Severity where
  | Error
  | Warning
  deriving DecidableEq, Repr

/-- One diagnostic (`diag.Diagnostic`): severity and summary. -/
structure Diagnostic where
  Severity : Severity
  Summary : String
  deriving DecidableEq, Repr

/-- The list of diagnostics a read returns (`diag.Diagnostics`). -/
abbrev Diagnostics := List Diagnostic

end diag

namespace sdkdiag

/-- Modelled from the spec: `sdkdiag.AppendErrorf` (package
`internal/errs/sdkdiag`, whose file is not among the sources). The
specification surfaces every failure of the lookup as one terminal error that
carries a message; accordingly the helper appends to `diags` one diagnostic of
severity `Error` whose summary is the formatted message. The formatting itself
(`fmt.Sprintf` of the format string with its arguments) is done by the caller
in this embedding, so the helper receives the finished text. -/
def AppendErrorf (diags : diag.Diagnostics) (message : String) : diag.Diagnostics :=
  diags ++ [{ Severity := diag.Severity.Error, Summary := message }]

end sdkdiag

namespace crc32

/-- The reversed polynomial of Go `crc32.IEEE`. -/
def IEEE : Nat := 0xedb88320

/-- One bit of the checksum register: shift right, and fold the polynomial in
when the bit shifted out is set. -/
def shift (crc : Nat) : Nat :=
  if crc % 2 = 1 then (crc / 2) ^^^ IEEE else crc / 2

/-- One byte of input: the byte is folded into the low end of the register,
which is then shifted eight times. -/
def update (crc : Nat) (b : Nat) : Nat :=
  shift (shift (shift (shift (shift (shift (shift (shift (crc ^^^ b))))))))

/-- Go `crc32.ChecksumIEEE data`: the CRC-32 checksum of the bytes, with the
register starting at all ones and inverted at the end. -/
def ChecksumIEEE (data : List Nat) : Nat :=
  (data.foldl update 0xffffffff) ^^^ 0xffffffff

end crc32

/-- The bytes of one character of a Go string (UTF-8). -/
def utf8EncodeRune (c : Char) : List Nat :=
  let v := c.toNat
  if v < 0x80 then [v]
  else if v < 0x800 then [0xc0 + v / 64, 0x80 + v % 64]
  else if v < 0x10000 then [0xe0 + v / 4096, 0x80 + v / 64 % 64, 0x80 + v % 64]
  else [0xf0 + v / 262144, 0x80 + v / 4096 % 64, 0x80 + v / 64 % 64, 0x80 + v % 64]

/-- The conversion `[]byte(s)` of a Go string. -/
def bytesOf (s : String) : List Nat :=
  s.data.flatMap utf8EncodeRune

namespace schema

/-- Library `hashcode s` of the plugin SDK: the CRC-32 of the bytes of `s` as
an `int`, which is 64 bits wide, so the value is never negative. -/
def hashcode (s : String) : Nat :=
  crc32.ChecksumIEEE (bytesOf s)

/-- Library `HashSchema` for an element schema of `TypeString`, the hash a set
uses when its schema names no `Set` function, as `version_stages` does: the
value is serialised as the string followed by `;` and that text is hashed. -/
def HashSchema (v : String) : Nat :=
  hashcode (v ++ ";")

/-- Library `schema.Set`: the items of the set, each under its hash code, in
the order they came in. -/
structure Set where
  m : List (Nat × String)
  deriving DecidableEq, Repr

namespace Set

/-- Library `(*Set).Add item` : the item is stored under its hash code unless
that code already holds an item. -/
def Add (s : Set) (item : String) : Set :=
  let code := HashSchema item
  if s.m.any (fun p => p.1 == code) then s else { m := s.m ++ [(code, item)] }

/-- The items a set holds. -/
def items (s : Set) : List String :=
  s.m.map Prod.snd

end Set

end schema

/-! ## Resource data -/


/-- The `schema.ResourceData` of one read of the data source.

The first three fields are what the readers see of the configuration: the
required `secret_id`, and the optional `version_id` and `version_stage` as
written by the user (`none` when the argument is absent or null). The other
fields are what the read has written so far: the id given by `SetId` and the
attribute slots given by `Set` (`none` while nothing has been written). A read
of a data source starts with nothing written, and the function never reads an
attribute after writing it, so `Get` and `GetOk` resolve to the configuration. -/
structure ResourceData where
  config_secret_id : String
  config_version_id : Option String
  config_version_stage : Option String
  Id : Option String
  arn : Option String
  secret_id : Option String
  secret_string : Option String
  secret_binary : Option (List UInt8)
  version_id : Option String
  version_stages : Option (Finset String)
  deriving DecidableEq

/-- The schema of the data source, `DataSourceSecretVersion`: the only entry
with a value that the read depends on is the `Default` of `version_stage`. -/
structure Schema where
  version_stage_Default : String

/-- `DataSourceSecretVersion()`: `version_stage` is optional with default
`"AWSCURRENT"`; `version_id` is optional and computed, without default;
`secret_id` is required. -/
def DataSourceSecretVersion : Schema :=
  { version_stage_Default := "AWSCURRENT" }

namespace ResourceData

/-- `d.Get("secret_id").(string)`. -/
def Get_secret_id (d : ResourceData) : String :=
  d.config_secret_id

/-- `d.GetOk("version_id")`: the value, and whether it is set to something
other than the zero value of its type (the empty string). An absent argument
reads as the zero value. -/
def GetOk_version_id (d : ResourceData) : String × Bool :=
  match d.config_version_id with
  | some v => (v, v != "")
  | none => ("", false)

/-- `d.Get("version_stage").(string)`: the configured value, or the schema
default when the argument is absent. -/
def Get_version_stage (d : ResourceData) : String :=
  match d.config_version_stage with
  | some v => v
  | none => DataSourceSecretVersion.version_stage_Default

/-- `d.SetId(v)`. -/
def SetId (d : ResourceData) (v : String) : ResourceData :=
  { d with Id := some v }

/-- `d.Set(key, v)` for a string attribute given a Go `*string`: the pointer is
dereferenced, and a nil pointer writes the empty string. -/
def ptrValue (v : Option String) : String :=
  match v with
  | some s => s
  | none => ""

/-- `d.Set("secret_id", v)` with a plain string. -/
def Set_secret_id (d : ResourceData) (v : String) : ResourceData :=
  { d with secret_id := some v }

/-- `d.Set("secret_string", v)` with a `*string`. -/
def Set_secret_string (d : ResourceData) (v : Option String) : ResourceData :=
  { d with secret_string := some (ptrValue v) }

/-- `d.Set("version_id", v)` with a `*string`. -/
def Set_version_id (d : ResourceData) (v : Option String) : ResourceData :=
  { d with version_id := some (ptrValue v) }

/-- `d.Set("secret_binary", v)` with the Go string `string(b)`. -/
def Set_secret_binary (d : ResourceData) (v : List UInt8) : ResourceData :=
  { d with secret_binary := some v }

/-- `d.Set("arn", v)` with a `*string`. -/
def Set_arn (d : ResourceData) (v : Option String) : ResourceData :=
  { d with arn := some (ptrValue v) }

/-- `d.Set("version_stages", v)` with a `[]string`: the attribute is a set of
strings, so the writer builds a `schema.Set` by adding the elements of the slice
in order, and stores the items the set holds. An element whose hash code is
already taken by an earlier element is therefore not stored. Writing a slice
of strings into a set of strings does not fail, so the result is always `ok`. -/
def Set_version_stages (d : ResourceData) (v : List String) : Except String ResourceData :=
  let s := v.foldl schema.Set.Add { m := [] }
  Except.ok { d with version_stages := some s.items.toFinset }

end ResourceData

/-! ## The read -/

/-- The package constants and the formatting verb the read uses but does not
define: the two error codes (declared in another file of the package) and the
`%q` verb of `fmt` on a string (`strconv.Quote`). -/
structure Env where
  errCodeResourceNotFoundException : String
  errCodeInvalidRequestException : String
  quote : String → String

/-- What one call of `dataSourceSecretVersionRead` does: the resource data it
leaves, the diagnostics it returns and the requests it sent to the client, in
order. -/
structure ReadResult where
  d : ResourceData
  diags : diag.Diagnostics
  requests : List GetSecretValueInput

/-- Lines 66 to 81 of `dataSourceSecretVersionRead`: the request and the local
`version`. -/
def selectVersion (d : ResourceData) : GetSecretValueInput × String :=
  let secretID := d.Get_secret_id
  let input : GetSecretValueInput :=
    { SecretId := some secretID, VersionId := none, VersionStage := none }
  match d.GetOk_version_id with
  | (v, true) =>
    let versionID := v
    ({ input with VersionId := some versionID }, versionID)
  | (_, false) =>
    let versionStage := d.Get_version_stage
    ({ input with VersionStage := some versionStage }, versionStage)

/-- The function `dataSourceSecretVersionRead`. -/
def dataSourceSecretVersionRead (env : Env) (conn : Client) (d : ResourceData) : ReadResult :=
  let diags : diag.Diagnostics := []
  let secretID := d.Get_secret_id
  let (input, version) := selectVersion d
  match conn.GetSecretValue input with
  | Except.error err =>
    if tfawserr.ErrCodeEquals err env.errCodeResourceNotFoundException then
      { d := d
        diags := sdkdiag.AppendErrorf diags
          ("Secrets Manager Secret " ++ env.quote secretID ++ " Version " ++ env.quote version
            ++ " not found")
        requests := [input] }
    else if tfawserr.ErrMessageContains err env.errCodeInvalidRequestException
        "You can't perform this operation on the secret because it was deleted" then
      { d := d
        diags := sdkdiag.AppendErrorf diags
          ("Secrets Manager Secret " ++ env.quote secretID ++ " Version " ++ env.quote version
            ++ " not found")
        requests := [input] }
    else
      { d := d
        diags := sdkdiag.AppendErrorf diags
          ("reading Secrets Manager Secret Version: " ++ err.Error)
        requests := [input] }
  | Except.ok output =>
    let d := d.SetId (secretID ++ "|" ++ version)
    let d := d.Set_secret_id secretID
    let d := d.Set_secret_string output.SecretString
    let d := d.Set_version_id output.VersionId
    let d := d.Set_secret_binary output.SecretBinary
    let d := d.Set_arn output.ARN
    match d.Set_version_stages output.VersionStages with
    | Except.error err =>
      { d := d
        diags := sdkdiag.AppendErrorf diags ("setting version_stages: " ++ err)
        requests := [input] }
    | Except.ok d =>
      { d := d, diags := diags, requests := [input] }

/-- The effective selector of a query in the words of the specification:
`version_id` when it is set (present and not the empty string), otherwise the
`version_stage` label, which is `"AWSCURRENT"` when the argument is absent. -/
def effectiveSelector (d : ResourceData) : String :=
  match d.config_version_id with
  | some v => if v = "" then d.config_version_stage.getD "AWSCURRENT" else v
  | none => d.config_version_stage.getD "AWSCURRENT"

/-! ## Concrete inputs -/

/-- A resource data as a read receives it: the configuration of the query and
nothing written yet. -/
def ResourceData.ofConfig (secret_id : String) (version_id version_stage : Option String) :
    ResourceData :=
  { config_secret_id := secret_id
    config_version_id := version_id
    config_version_stage := version_stage
    Id := none
    arn := none
    secret_id := none
    secret_string := none
    secret_binary := none
    version_id := none
    version_stages := none }

/-- An environment for the examples: the codes are the names of the two
service exceptions, and the quoting verb wraps a text free of special
characters in double quotes. -/
def exampleEnv : Env :=
  { errCodeResourceNotFoundException := "ResourceNotFoundException"
    errCodeInvalidRequestException := "InvalidRequestException"
    quote := fun s => "\"" ++ s ++ "\"" }

/-- A client whose every call fails with `err`. -/
def failingClient (err : GoError) : Client :=
  { GetSecretValue := fun _ => Except.error err }

/-- A client whose every call returns `output`. -/
def answeringClient (output : GetSecretValueOutput) : Client :=
  { GetSecretValue := fun _ => Except.ok output }

/-- The response of the scenario of the specification. -/
def exampleOutput : GetSecretValueOutput :=
  { ARN := some "arn:aws:secretsmanager:..."
    SecretBinary := []
    SecretString := some "pw123"
    VersionId := some "v2"
    VersionStages := ["AWSPREVIOUS"] }

/-- A response whose two stage labels have the same hash code. -/
def collidingOutput : GetSecretValueOutput :=
  { ARN := some "arn:aws:secretsmanager:..."
    SecretBinary := []
    SecretString := some "pw123"
    VersionId := some "v2"
    VersionStages := ["plumless", "buckeroo"] }

/-- A resource-not-found error of the service. -/
def exampleNotFound : GoError :=
  { api := some { ErrorCode := "ResourceNotFoundException"
                  ErrorMessage := "Secrets Manager can't find the specified secret." }
    Error := "ResourceNotFoundException: Secrets Manager can't find the specified secret." }

/-- An invalid-request error of the service for a secret marked deleted. -/
def exampleDeleted : GoError :=
  { api := some { ErrorCode := "InvalidRequestException"
                  ErrorMessage :=
                    "You can't perform this operation on the secret because it was deleted." }
    Error := "InvalidRequestException: You can't perform this operation on the secret because it was deleted." }

/-- An invalid-request error of the service with another message. -/
def exampleInvalid : GoError :=
  { api := some { ErrorCode := "InvalidRequestException"
                  ErrorMessage := "You tried to perform the operation on a secret that is scheduled." }
    Error := "InvalidRequestException: You tried to perform the operation on a secret that is scheduled." }

/-! ## Auxiliary facts -/

theorem Get_version_stage_eq (d : ResourceData) :
    d.Get_version_stage = d.config_version_stage.getD "AWSCURRENT" := by
  unfold ResourceData.Get_version_stage DataSourceSecretVersion
  cases d.config_version_stage <;> rfl

theorem ptrValue_eq (v : Option String) : ResourceData.ptrValue v = v.getD "" := by
  cases v <;> rfl

theorem selectVersion_set (d : ResourceData) (v : String)
    (hv : d.config_version_id = some v) (hne : v ≠ "") :
    selectVersion d =
      ({ SecretId := some d.config_secret_id, VersionId := some v, VersionStage := none }, v) := by
  have hb : (v != "") = true := by simp [hne]
  simp only [selectVersion, ResourceData.GetOk_version_id, ResourceData.Get_secret_id, hv, hb]

theorem selectVersion_empty (d : ResourceData) (hv : d.config_version_id = some "") :
    selectVersion d =
      ({ SecretId := some d.config_secret_id, VersionId := none,
         VersionStage := some (d.config_version_stage.getD "AWSCURRENT") },
       d.config_version_stage.getD "AWSCURRENT") := by
  simp [selectVersion, ResourceData.GetOk_version_id, ResourceData.Get_secret_id, hv,
    Get_version_stage_eq]

theorem selectVersion_absent (d : ResourceData) (hv : d.config_version_id = none) :
    selectVersion d =
      ({ SecretId := some d.config_secret_id, VersionId := none,
         VersionStage := some (d.config_version_stage.getD "AWSCURRENT") },
       d.config_version_stage.getD "AWSCURRENT") := by
  simp [selectVersion, ResourceData.GetOk_version_id, ResourceData.Get_secret_id, hv,
    Get_version_stage_eq]

theorem selectVersion_snd (d : ResourceData) : (selectVersion d).2 = effectiveSelector d := by
  unfold effectiveSelector
  cases hv : d.config_version_id with
  | none => rw [selectVersion_absent d hv]
  | some v =>
    by_cases hne : v = ""
    · subst hne
      rw [selectVersion_empty d hv]
      simp
    · rw [selectVersion_set d v hv hne]
      simp [hne]

theorem read_requests (env : Env) (conn : Client) (d : ResourceData) :
    (dataSourceSecretVersionRead env conn d).requests = [(selectVersion d).1] := by
  unfold dataSourceSecretVersionRead
  simp only [ResourceData.Set_version_stages]
  cases conn.GetSecretValue (selectVersion d).1 with
  | error err => simp only []; split_ifs <;> rfl
  | ok output => rfl

theorem read_ok (env : Env) (conn : Client) (d : ResourceData) (output : GetSecretValueOutput)
    (h : conn.GetSecretValue (selectVersion d).1 = Except.ok output) :
    dataSourceSecretVersionRead env conn d =
      { d := { d with
          Id := some (d.config_secret_id ++ "|" ++ effectiveSelector d)
          secret_id := some d.config_secret_id
          secret_string := some (output.SecretString.getD "")
          version_id := some (output.VersionId.getD "")
          secret_binary := some output.SecretBinary
          arn := some (output.ARN.getD "")
          version_stages :=
            some (output.VersionStages.foldl schema.Set.Add { m := [] }).items.toFinset }
        diags := []
        requests := [(selectVersion d).1] } := by
  unfold dataSourceSecretVersionRead
  simp only [h, ResourceData.Set_version_stages, ResourceData.Set_arn,
    ResourceData.Set_secret_binary, ResourceData.Set_version_id,
    ResourceData.Set_secret_string, ResourceData.Set_secret_id, ResourceData.SetId,
    ResourceData.Get_secret_id, ptrValue_eq, selectVersion_snd]

theorem read_notFound (env : Env) (conn : Client) (d : ResourceData) (err : GoError)
    (h : conn.GetSecretValue (selectVersion d).1 = Except.error err)
    (hc : tfawserr.ErrCodeEquals err env.errCodeResourceNotFoundException = true ∨
      tfawserr.ErrMessageContains err env.errCodeInvalidRequestException
        "You can't perform this operation on the secret because it was deleted" = true) :
    dataSourceSecretVersionRead env conn d =
      { d := d
        diags := [{ Severity := diag.Severity.Error
                    Summary := "Secrets Manager Secret " ++ env.quote d.config_secret_id
                      ++ " Version " ++ env.quote (effectiveSelector d) ++ " not found" }]
        requests := [(selectVersion d).1] } := by
  unfold dataSourceSecretVersionRead
  simp only [h, sdkdiag.AppendErrorf, ResourceData.Get_secret_id, selectVersion_snd,
    List.nil_append]
  rcases hc with hc | hc
  · simp only [hc, if_true]
  · simp only [hc, if_true, ite_self]

theorem read_upstream (env : Env) (conn : Client) (d : ResourceData) (err : GoError)
    (h : conn.GetSecretValue (selectVersion d).1 = Except.error err)
    (h1 : tfawserr.ErrCodeEquals err env.errCodeResourceNotFoundException = false)
    (h2 : tfawserr.ErrMessageContains err env.errCodeInvalidRequestException
        "You can't perform this operation on the secret because it was deleted" = false) :
    dataSourceSecretVersionRead env conn d =
      { d := d
        diags := [{ Severity := diag.Severity.Error
                    Summary := "reading Secrets Manager Secret Version: " ++ err.Error }]
        requests := [(selectVersion d).1] } := by
  unfold dataSourceSecretVersionRead
  simp only [h, h1, h2, sdkdiag.AppendErrorf, List.nil_append, Bool.false_eq_true, if_false]

theorem Contains_iff (s substr : String) :
    strings.Contains s substr = true ↔ substr.data <:+: s.data := by
  unfold strings.Contains
  rw [List.any_eq_true]
  constructor
  · rintro ⟨t, ht, hp⟩
    rw [List.mem_tails] at ht
    rw [List.isPrefixOf_iff_prefix] at hp
    exact List.IsInfix.trans hp.isInfix ht.isInfix
  · intro h
    obtain ⟨t, hp, hs⟩ := List.infix_iff_prefix_suffix.mp h
    exact ⟨t, (List.mem_tails t s.data).mpr hs, List.isPrefixOf_iff_prefix.mpr hp⟩

theorem upstream_ne_notFound (e x : String) :
    "reading Secrets Manager Secret Version: " ++ e ≠ "Secrets Manager Secret " ++ x := by
  intro h
  have h2 := congrArg (fun s => s.data.head?) h
  simp only [String.data_append] at h2
  revert h2
  show ¬ (('r' :: _) ++ _ : List Char).head? = (('S' :: _) ++ _ : List Char).head?
  simp

theorem notFound_append_assoc (a b c : String) :
    "Secrets Manager Secret " ++ a ++ " Version " ++ b ++ c
      = "Secrets Manager Secret " ++ (a ++ " Version " ++ b ++ c) := by
  simp only [String.append_assoc]

theorem ErrCodeEquals_of_api (err : GoError) (a : APIError) (code : String)
    (ha : err.api = some a) (hc : a.ErrorCode = code) :
    tfawserr.ErrCodeEquals err code = true := by
  simp [tfawserr.ErrCodeEquals, ha, hc]

theorem ErrMessageContains_of_api (err : GoError) (a : APIError) (code message : String)
    (ha : err.api = some a) (hc : a.ErrorCode = code)
    (hm : message.data <:+: a.ErrorMessage.data) :
    tfawserr.ErrMessageContains err code message = true := by
  simp [tfawserr.ErrMessageContains, ha, hc, (Contains_iff a.ErrorMessage message).mpr hm]

theorem Set_Add_items_mem (s : schema.Set) (a x : String) :
    x ∈ (s.Add a).items ↔
      x ∈ s.items ∨ (x = a ∧ ∀ p ∈ s.m, p.1 ≠ schema.HashSchema a) := by
  unfold schema.Set.Add schema.Set.items
  by_cases hc : (s.m.any fun p => p.1 == schema.HashSchema a) = true
  · simp only [hc, if_true]
    constructor
    · intro h
      exact Or.inl h
    · rintro (h | ⟨_, h⟩)
      · exact h
      · rw [List.any_eq_true] at hc
        obtain ⟨p, hp, hpc⟩ := hc
        exact absurd (by simpa using hpc) (h p hp)
  · simp only [hc, if_false, List.map_append, List.map_cons, List.map_nil, List.mem_append,
      List.mem_singleton, Bool.false_eq_true]
    have hall : ∀ p ∈ s.m, p.1 ≠ schema.HashSchema a := by
      intro p hp heq
      exact hc (List.any_eq_true.mpr ⟨p, hp, by simpa using heq⟩)
    constructor
    · rintro (h | h)
      · exact Or.inl h
      · exact Or.inr ⟨h, hall⟩
    · rintro (h | ⟨h, _⟩)
      · exact Or.inl h
      · exact Or.inr h

theorem Set_Add_code_free (s : schema.Set) (a : String) (c : Nat) :
    (∀ p ∈ (s.Add a).m, p.1 ≠ c) ↔ (∀ p ∈ s.m, p.1 ≠ c) ∧ schema.HashSchema a ≠ c := by
  unfold schema.Set.Add
  by_cases hc : (s.m.any fun p => p.1 == schema.HashSchema a) = true
  · simp only [hc, if_true]
    constructor
    · intro h
      refine ⟨h, ?_⟩
      rw [List.any_eq_true] at hc
      obtain ⟨p, hp, hpc⟩ := hc
      have hpa : p.1 = schema.HashSchema a := by simpa using hpc
      rw [← hpa]
      exact h p hp
    · rintro ⟨h, _⟩
      exact h
  · simp only [hc, if_false, Bool.false_eq_true]
    constructor
    · intro h
      exact ⟨fun p hp => h p (List.mem_append_left _ hp),
        h (schema.HashSchema a, a) (List.mem_append_right _ (List.mem_singleton.mpr rfl))⟩
    · rintro ⟨h, ha⟩ p hp
      rcases List.mem_append.mp hp with hp | hp
      · exact h p hp
      · rw [List.mem_singleton.mp hp]
        exact ha

theorem Set_foldl_items_mem (l : List String) :
    ∀ (s : schema.Set) (x : String),
      x ∈ (l.foldl schema.Set.Add s).items ↔
        x ∈ s.items ∨
          ∃ pre post, l = pre ++ x :: post ∧
            (∀ t ∈ pre, schema.HashSchema t ≠ schema.HashSchema x) ∧
            ∀ p ∈ s.m, p.1 ≠ schema.HashSchema x := by
  induction l with
  | nil =>
    intro s x
    simp
  | cons a l ih =>
    intro s x
    rw [List.foldl_cons, ih (s.Add a) x, Set_Add_items_mem]
    constructor
    · rintro ((h | ⟨hxa, hfree⟩) | ⟨pre, post, hl, hpre, hfree⟩)
      · exact Or.inl h
      · subst hxa
        exact Or.inr ⟨[], l, rfl, by simp, hfree⟩
      · rw [Set_Add_code_free] at hfree
        refine Or.inr ⟨a :: pre, post, by rw [hl]; rfl, ?_, hfree.1⟩
        intro t ht
        rcases List.mem_cons.mp ht with ht | ht
        · rw [ht]
          exact hfree.2
        · exact hpre t ht
    · rintro (h | ⟨pre, post, hl, hpre, hfree⟩)
      · exact Or.inl (Or.inl h)
      · cases pre with
        | nil =>
          have hax : a = x := (List.cons.inj hl).1
          subst hax
          exact Or.inl (Or.inr ⟨rfl, hfree⟩)
        | cons b pre =>
          have hab : a = b := (List.cons.inj hl).1
          have hl2 : l = pre ++ x :: post := (List.cons.inj hl).2
          subst hab
          refine Or.inr ⟨pre, post, hl2, fun t ht => hpre t (List.mem_cons_of_mem _ ht), ?_⟩
          rw [Set_Add_code_free]
          exact ⟨hfree, hpre a (List.mem_cons_self _ _)⟩

theorem first_occurrence (l : List String) (x : String) (hx : x ∈ l) :
    ∃ pre post, l = pre ++ x :: post ∧ x ∉ pre := by
  induction l with
  | nil => exact absurd hx (List.not_mem_nil x)
  | cons a l ih =>
    by_cases hax : x = a
    · subst hax
      exact ⟨[], l, rfl, List.not_mem_nil x⟩
    · rcases List.mem_cons.mp hx with h | h
      · exact absurd h hax
      · obtain ⟨pre, post, hl, hpre⟩ := ih h
        refine ⟨a :: pre, post, by rw [hl]; rfl, ?_⟩
        intro hmem
        rcases List.mem_cons.mp hmem with h2 | h2
        · exact hax h2
        · exact hpre h2

theorem stored_stages_mem (l : List String) (x : String) :
    x ∈ (l.foldl schema.Set.Add { m := [] }).items.toFinset ↔
      ∃ pre post, l = pre ++ x :: post ∧
        ∀ t ∈ pre, schema.HashSchema t ≠ schema.HashSchema x := by
  rw [List.mem_toFinset, Set_foldl_items_mem]
  constructor
  · rintro (h | ⟨pre, post, hl, hpre, _⟩)
    · simp [schema.Set.items] at h
    · exact ⟨pre, post, hl, hpre⟩
  · rintro ⟨pre, post, hl, hpre⟩
    exact Or.inr ⟨pre, post, hl, hpre, by simp⟩

theorem stored_stages_of_injective (l : List String)
    (hinj : ∀ a ∈ l, ∀ b ∈ l, schema.HashSchema a = schema.HashSchema b → a = b) :
    (l.foldl schema.Set.Add { m := [] }).items.toFinset = l.toFinset := by
  ext x
  rw [stored_stages_mem, List.mem_toFinset]
  constructor
  · rintro ⟨pre, post, hl, _⟩
    rw [hl]
    simp
  · intro hx
    obtain ⟨pre, post, hl, hpre⟩ := first_occurrence l x hx
    refine ⟨pre, post, hl, ?_⟩
    intro t ht heq
    have htl : t ∈ l := by rw [hl]; exact List.mem_append_left _ ht
    have := hinj t htl x hx heq
    exact hpre (this ▸ ht)

/-! ## Properties of the read -/


/-- C1: for every query whose `version_id` is set (present and, as `GetOk`
requires, not the empty string), the one request the read sends carries the
input `secret_id`, `VersionId` equal to that `version_id`, and no
`VersionStage`, whatever `version_stage` holds. -/
theorem version_id_takes_precedence (env : Env) (conn : Client) (d : ResourceData) (v : String)
    (hv : d.config_version_id = some v) (hne : v ≠ "") :
    (dataSourceSecretVersionRead env conn d).requests =
      [{ SecretId := some d.config_secret_id, VersionId := some v, VersionStage := none }] := by
  rw [read_requests, selectVersion_set d v hv hne]

/-- The query with `version_id = "v2"` and `version_stage = "AWSPENDING"` asks for version id `"v2"` and no stage. -/
theorem version_id_takes_precedence_witness :
    ("v2" : String) ≠ "" ∧
    (dataSourceSecretVersionRead exampleEnv (answeringClient exampleOutput)
        (ResourceData.ofConfig "db/prod" (some "v2") (some "AWSPENDING"))).requests =
      [{ SecretId := some "db/prod", VersionId := some "v2", VersionStage := none }] :=
  ⟨by decide,
   version_id_takes_precedence exampleEnv (answeringClient exampleOutput)
     (ResourceData.ofConfig "db/prod" (some "v2") (some "AWSPENDING")) "v2" rfl (by decide)⟩

/-- C2: for every query in which both `version_id` and `version_stage` are
absent, the one request the read sends carries `VersionStage = "AWSCURRENT"`,
the default of `version_stage` in the schema, and no `VersionId`. -/
theorem default_stage_is_AWSCURRENT (env : Env) (conn : Client) (d : ResourceData)
    (hv : d.config_version_id = none) (hs : d.config_version_stage = none) :
    (dataSourceSecretVersionRead env conn d).requests =
      [{ SecretId := some d.config_secret_id, VersionId := none,
         VersionStage := some "AWSCURRENT" }] ∧
    DataSourceSecretVersion.version_stage_Default = "AWSCURRENT" := by
  rw [read_requests, selectVersion_absent d hv, hs]
  exact ⟨rfl, rfl⟩

/-- The query `db/prod` without selector asks for the stage `"AWSCURRENT"`. -/
theorem default_stage_is_AWSCURRENT_witness :
    (dataSourceSecretVersionRead exampleEnv (failingClient exampleNotFound)
        (ResourceData.ofConfig "db/prod" none none)).requests =
      [{ SecretId := some "db/prod", VersionId := none, VersionStage := some "AWSCURRENT" }] ∧
    DataSourceSecretVersion.version_stage_Default = "AWSCURRENT" :=
  default_stage_is_AWSCURRENT exampleEnv (failingClient exampleNotFound)
    (ResourceData.ofConfig "db/prod" none none) rfl rfl

/-- C3: for every query the read sends exactly one request; it carries
`SecretId` equal to the input `secret_id` and exactly one of `VersionId` and
`VersionStage` (never both, never neither); and the value of the one that is
set is the `version` of the id assigned on success and of the not-found
message. -/
theorem exactly_one_selector (env : Env) (conn : Client) (d : ResourceData) :
    ∃ input version,
      (dataSourceSecretVersionRead env conn d).requests = [input] ∧
      input.SecretId = some d.config_secret_id ∧
      ((input.VersionId = some version ∧ input.VersionStage = none) ∨
        (input.VersionId = none ∧ input.VersionStage = some version)) ∧
      (∀ output, conn.GetSecretValue input = Except.ok output →
        (dataSourceSecretVersionRead env conn d).d.Id =
          some (d.config_secret_id ++ "|" ++ version)) ∧
      (∀ err, conn.GetSecretValue input = Except.error err →
        (tfawserr.ErrCodeEquals err env.errCodeResourceNotFoundException = true ∨
          tfawserr.ErrMessageContains err env.errCodeInvalidRequestException
            "You can't perform this operation on the secret because it was deleted" = true) →
        (dataSourceSecretVersionRead env conn d).diags =
          [{ Severity := diag.Severity.Error
             Summary := "Secrets Manager Secret " ++ env.quote d.config_secret_id
               ++ " Version " ++ env.quote version ++ " not found" }]) := by
  refine ⟨(selectVersion d).1, (selectVersion d).2, read_requests env conn d, ?_, ?_, ?_, ?_⟩
  · cases hv : d.config_version_id with
    | none => rw [selectVersion_absent d hv]
    | some v =>
      by_cases hne : v = ""
      · subst hne
        rw [selectVersion_empty d hv]
      · rw [selectVersion_set d v hv hne]
  · cases hv : d.config_version_id with
    | none => rw [selectVersion_absent d hv]; exact Or.inr ⟨rfl, rfl⟩
    | some v =>
      by_cases hne : v = ""
      · subst hne
        rw [selectVersion_empty d hv]; exact Or.inr ⟨rfl, rfl⟩
      · rw [selectVersion_set d v hv hne]; exact Or.inl ⟨rfl, rfl⟩
  · intro output h
    rw [read_ok env conn d output h, selectVersion_snd]
  · intro err h hc
    rw [read_notFound env conn d err h hc, selectVersion_snd]

/-- C4: for every query, when the call of the read fails with an API error
whose code is the resource-not-found code, the read returns the not-found
error: one diagnostic of severity `Error` whose text is the not-found format
filled with the input `secret_id` and the effective selector of the query
(`version_id` when set, otherwise the `version_stage` label). -/
theorem notFound_names_secret_and_version (env : Env) (conn : Client) (d : ResourceData)
    (err : GoError) (a : APIError)
    (h : conn.GetSecretValue (selectVersion d).1 = Except.error err)
    (ha : err.api = some a) (hcode : a.ErrorCode = env.errCodeResourceNotFoundException) :
    (dataSourceSecretVersionRead env conn d).diags =
      [{ Severity := diag.Severity.Error
         Summary := "Secrets Manager Secret " ++ env.quote d.config_secret_id
           ++ " Version " ++ env.quote (effectiveSelector d) ++ " not found" }] := by
  rw [read_notFound env conn d err h (Or.inl (ErrCodeEquals_of_api err a _ ha hcode))]

/-- The scenario of the specification: `db/prod` without selector, the service answers not found. -/
theorem notFound_names_secret_and_version_witness :
    (dataSourceSecretVersionRead exampleEnv (failingClient exampleNotFound)
        (ResourceData.ofConfig "db/prod" none none)).diags =
      [{ Severity := diag.Severity.Error
         Summary := "Secrets Manager Secret \"db/prod\" Version \"AWSCURRENT\" not found" }] :=
  notFound_names_secret_and_version exampleEnv (failingClient exampleNotFound)
    (ResourceData.ofConfig "db/prod" none none) exampleNotFound
    { ErrorCode := "ResourceNotFoundException"
      ErrorMessage := "Secrets Manager can't find the specified secret." }
    rfl rfl rfl

/-- C5: for every query, when the call of the read fails with an API error
whose code is the invalid-request code and whose message contains the
deleted-secret marker, the read returns the not-found diagnostic (input
`secret_id`, effective selector), which is the very diagnostic a
resource-not-found failure of the same query produces, and which is not the
upstream diagnostic. -/
theorem deleted_secret_is_notFound (env : Env) (conn : Client) (d : ResourceData)
    (err : GoError) (a : APIError)
    (h : conn.GetSecretValue (selectVersion d).1 = Except.error err)
    (ha : err.api = some a) (hcode : a.ErrorCode = env.errCodeInvalidRequestException)
    (hmsg : ("You can't perform this operation on the secret because it was deleted" : String).data <:+: a.ErrorMessage.data) :
    (dataSourceSecretVersionRead env conn d).diags =
      [{ Severity := diag.Severity.Error
         Summary := "Secrets Manager Secret " ++ env.quote d.config_secret_id
           ++ " Version " ++ env.quote (effectiveSelector d) ++ " not found" }] ∧
    (∀ (conn2 : Client) (err2 : GoError) (a2 : APIError),
      conn2.GetSecretValue (selectVersion d).1 = Except.error err2 →
      err2.api = some a2 → a2.ErrorCode = env.errCodeResourceNotFoundException →
      (dataSourceSecretVersionRead env conn2 d).diags =
        (dataSourceSecretVersionRead env conn d).diags) ∧
    (dataSourceSecretVersionRead env conn d).diags ≠
      [{ Severity := diag.Severity.Error
         Summary := "reading Secrets Manager Secret Version: " ++ err.Error }] := by
  have hr := read_notFound env conn d err h
    (Or.inr (ErrMessageContains_of_api err a _ _ ha hcode hmsg))
  refine ⟨by rw [hr], ?_, ?_⟩
  · intro conn2 err2 a2 h2 ha2 hc2
    rw [hr, read_notFound env conn2 d err2 h2 (Or.inl (ErrCodeEquals_of_api err2 a2 _ ha2 hc2))]
  · rw [hr]
    intro hEq
    have hS := congrArg (fun l => l.map diag.Diagnostic.Summary) hEq
    simp only [List.map_cons, List.map_nil, List.cons.injEq, and_true] at hS
    rw [notFound_append_assoc] at hS
    exact upstream_ne_notFound _ _ hS.symm

/-- A deleted secret looked up by the stage `"AWSPREVIOUS"` is reported as not found. -/
theorem deleted_secret_is_notFound_witness :
    ("You can't perform this operation on the secret because it was deleted" : String).data <:+:
      ("You can't perform this operation on the secret because it was deleted." : String).data ∧
    ((dataSourceSecretVersionRead exampleEnv (failingClient exampleDeleted)
        (ResourceData.ofConfig "db/prod" none (some "AWSPREVIOUS"))).diags =
      [{ Severity := diag.Severity.Error
         Summary := "Secrets Manager Secret \"db/prod\" Version \"AWSPREVIOUS\" not found" }]) :=
  ⟨⟨[], ['.'], by decide⟩,
   (deleted_secret_is_notFound exampleEnv (failingClient exampleDeleted)
      (ResourceData.ofConfig "db/prod" none (some "AWSPREVIOUS")) exampleDeleted
      { ErrorCode := "InvalidRequestException"
        ErrorMessage := "You can't perform this operation on the secret because it was deleted." }
      rfl rfl rfl ⟨[], ['.'], by decide⟩).1⟩

/-- C6: for every query, when the call of the read fails with an error that is
neither an API error with the resource-not-found code nor an API error with
the invalid-request code and a message containing the deleted-secret marker
(an error that is no API error at all, or an invalid-request error with
another message, included), the read returns the upstream diagnostic: one
diagnostic of severity `Error` whose text is the fixed lead followed by the
text of the error, so the error text is a contiguous part of it, and whose
text is never a not-found text. -/
theorem other_error_is_upstream (env : Env) (conn : Client) (d : ResourceData) (err : GoError)
    (h : conn.GetSecretValue (selectVersion d).1 = Except.error err)
    (hnf : ∀ a, err.api = some a → a.ErrorCode ≠ env.errCodeResourceNotFoundException)
    (hdel : ∀ a, err.api = some a → a.ErrorCode = env.errCodeInvalidRequestException →
      ¬ ("You can't perform this operation on the secret because it was deleted" : String).data <:+: a.ErrorMessage.data) :
    ∃ summary,
      (dataSourceSecretVersionRead env conn d).diags =
        [{ Severity := diag.Severity.Error, Summary := summary }] ∧
      summary = "reading Secrets Manager Secret Version: " ++ err.Error ∧
      err.Error.data <:+: summary.data ∧
      ∀ s v : String,
        summary ≠ "Secrets Manager Secret " ++ s ++ " Version " ++ v ++ " not found" := by
  have h1 : tfawserr.ErrCodeEquals err env.errCodeResourceNotFoundException = false := by
    unfold tfawserr.ErrCodeEquals
    cases ha : err.api with
    | none => rfl
    | some a => simpa using hnf a ha
  have h2 : tfawserr.ErrMessageContains err env.errCodeInvalidRequestException "You can't perform this operation on the secret because it was deleted"
      = false := by
    unfold tfawserr.ErrMessageContains
    cases ha : err.api with
    | none => rfl
    | some a =>
      by_cases hc : a.ErrorCode = env.errCodeInvalidRequestException
      · have hm := hdel a ha hc
        rw [← Contains_iff] at hm
        simp [hm]
      · simp [hc]
  refine ⟨_, by rw [read_upstream env conn d err h h1 h2], rfl, ?_, ?_⟩
  · rw [String.data_append]
    exact (List.suffix_append _ _).isInfix
  · intro s v
    rw [notFound_append_assoc]
    exact upstream_ne_notFound _ _

/-- An invalid-request error with another message is reported with its own text. -/
theorem other_error_is_upstream_witness :
    ∃ summary,
      (dataSourceSecretVersionRead exampleEnv (failingClient exampleInvalid)
          (ResourceData.ofConfig "db/prod" (some "v2") none)).diags =
        [{ Severity := diag.Severity.Error, Summary := summary }] ∧
      summary = "reading Secrets Manager Secret Version: " ++ exampleInvalid.Error ∧
      exampleInvalid.Error.data <:+: summary.data ∧
      ∀ s v : String,
        summary ≠ "Secrets Manager Secret " ++ s ++ " Version " ++ v ++ " not found" :=
  other_error_is_upstream exampleEnv (failingClient exampleInvalid)
    (ResourceData.ofConfig "db/prod" (some "v2") none) exampleInvalid rfl
    (by
      intro a ha
      have hEq : a = { ErrorCode := "InvalidRequestException"
                       ErrorMessage :=
                         "You tried to perform the operation on a secret that is scheduled." } :=
        (Option.some.inj ha).symm
      subst hEq
      decide)
    (by
      intro a ha _
      have hEq : a = { ErrorCode := "InvalidRequestException"
                       ErrorMessage :=
                         "You tried to perform the operation on a secret that is scheduled." } :=
        (Option.some.inj ha).symm
      subst hEq
      rw [← Contains_iff]
      decide)

/-- C7, as amended: for every query and every response with which the call of
the read succeeds, the read returns no diagnostic and writes `secret_id` as the
input `secret_id`, `arn`, `version_id` and `secret_string` as the `ARN`,
`VersionId` and `SecretString` of the response (a nil pointer reads as the
empty string), `secret_binary` as the bytes of `SecretBinary` unchanged, and
`version_stages` as the set of those labels of `VersionStages` that no earlier
label of the list shares its hash code with; that is the set of all the labels
of `VersionStages` whenever distinct labels of the response have distinct hash
codes. -/
theorem success_copies_response (env : Env) (conn : Client) (d : ResourceData)
    (output : GetSecretValueOutput)
    (h : conn.GetSecretValue (selectVersion d).1 = Except.ok output) :
    (dataSourceSecretVersionRead env conn d).diags = [] ∧
    (dataSourceSecretVersionRead env conn d).d.secret_id = some d.config_secret_id ∧
    (dataSourceSecretVersionRead env conn d).d.arn = some (output.ARN.getD "") ∧
    (dataSourceSecretVersionRead env conn d).d.version_id = some (output.VersionId.getD "") ∧
    (dataSourceSecretVersionRead env conn d).d.secret_string =
      some (output.SecretString.getD "") ∧
    (dataSourceSecretVersionRead env conn d).d.secret_binary = some output.SecretBinary ∧
    ∃ stages : Finset String,
      (dataSourceSecretVersionRead env conn d).d.version_stages = some stages ∧
      (∀ x, x ∈ stages ↔
        ∃ pre post, output.VersionStages = pre ++ x :: post ∧
          ∀ t ∈ pre, schema.HashSchema t ≠ schema.HashSchema x) ∧
      ((∀ a ∈ output.VersionStages, ∀ b ∈ output.VersionStages,
          schema.HashSchema a = schema.HashSchema b → a = b) →
        stages = output.VersionStages.toFinset) := by
  rw [read_ok env conn d output h]
  exact ⟨rfl, rfl, rfl, rfl, rfl, rfl, _, rfl, stored_stages_mem output.VersionStages,
    stored_stages_of_injective output.VersionStages⟩

/-- The scenario of the specification: `db/prod` at version id `"v2"`. -/
theorem success_copies_response_witness :
    (dataSourceSecretVersionRead exampleEnv (answeringClient exampleOutput)
        (ResourceData.ofConfig "db/prod" (some "v2") none)).diags = [] ∧
    (dataSourceSecretVersionRead exampleEnv (answeringClient exampleOutput)
        (ResourceData.ofConfig "db/prod" (some "v2") none)).d.secret_id = some "db/prod" ∧
    (dataSourceSecretVersionRead exampleEnv (answeringClient exampleOutput)
        (ResourceData.ofConfig "db/prod" (some "v2") none)).d.arn =
      some "arn:aws:secretsmanager:..." ∧
    (dataSourceSecretVersionRead exampleEnv (answeringClient exampleOutput)
        (ResourceData.ofConfig "db/prod" (some "v2") none)).d.version_id = some "v2" ∧
    (dataSourceSecretVersionRead exampleEnv (answeringClient exampleOutput)
        (ResourceData.ofConfig "db/prod" (some "v2") none)).d.secret_string = some "pw123" ∧
    (dataSourceSecretVersionRead exampleEnv (answeringClient exampleOutput)
        (ResourceData.ofConfig "db/prod" (some "v2") none)).d.secret_binary = some [] ∧
    (dataSourceSecretVersionRead exampleEnv (answeringClient exampleOutput)
        (ResourceData.ofConfig "db/prod" (some "v2") none)).d.version_stages =
      some {"AWSPREVIOUS"} := by
  obtain ⟨h1, h2, h3, h4, h5, h6, stages, h7, _, h8⟩ :=
    success_copies_response exampleEnv (answeringClient exampleOutput)
      (ResourceData.ofConfig "db/prod" (some "v2") none) exampleOutput rfl
  refine ⟨h1, h2, h3, h4, h5, h6, ?_⟩
  rw [h7, h8 ?_]
  · rfl
  · intro a ha b hb _
    have ha2 : a = "AWSPREVIOUS" := by simpa [exampleOutput] using ha
    have hb2 : b = "AWSPREVIOUS" := by simpa [exampleOutput] using hb
    rw [ha2, hb2]

set_option maxRecDepth 100000 in
/-- C7 as first stated fails: the labels `"plumless"` and `"buckeroo"` have the
same hash code, so of the response with these two stages the read stores the
first label only, not the set of both. -/
theorem version_stages_collision_counterexample :
    (answeringClient collidingOutput).GetSecretValue
        (selectVersion (ResourceData.ofConfig "db/prod" (some "v2") none)).1 =
      Except.ok collidingOutput ∧
    schema.HashSchema "plumless" = 675285474 ∧
    schema.HashSchema "buckeroo" = 675285474 ∧
    (dataSourceSecretVersionRead exampleEnv (answeringClient collidingOutput)
        (ResourceData.ofConfig "db/prod" (some "v2") none)).d.version_stages =
      some {"plumless"} ∧
    (dataSourceSecretVersionRead exampleEnv (answeringClient collidingOutput)
        (ResourceData.ofConfig "db/prod" (some "v2") none)).d.version_stages ≠
      some collidingOutput.VersionStages.toFinset := by
  refine ⟨rfl, by decide, by decide, by decide, by decide⟩

/-- C8: for every query with which the call of the read succeeds, the id
assigned is the input `secret_id`, the bar, and the effective selector of the
query (the input `version_id` when set, otherwise the `version_stage` label),
whatever `VersionId` the response resolved. -/
theorem id_is_secret_bar_selector (env : Env) (conn : Client) (d : ResourceData)
    (output : GetSecretValueOutput)
    (h : conn.GetSecretValue (selectVersion d).1 = Except.ok output) :
    (dataSourceSecretVersionRead env conn d).d.Id =
      some (d.config_secret_id ++ "|" ++ effectiveSelector d) := by
  rw [read_ok env conn d output h]

/-- The id of `db/prod` without selector carries the stage label, not the `"v2"` of the response. -/
theorem id_is_secret_bar_selector_witness :
    (dataSourceSecretVersionRead exampleEnv (answeringClient exampleOutput)
        (ResourceData.ofConfig "db/prod" none none)).d.Id = some "db/prod|AWSCURRENT" ∧
    exampleOutput.VersionId = some "v2" :=
  ⟨id_is_secret_bar_selector exampleEnv (answeringClient exampleOutput)
     (ResourceData.ofConfig "db/prod" none none) exampleOutput rfl, rfl⟩

/-- C9: for every query, when the call of the read fails, with whatever error,
the read returns exactly one diagnostic, of severity `Error`, and leaves the
resource data as it received it: no id is assigned and no attribute is
written. -/
theorem failure_writes_nothing (env : Env) (conn : Client) (d : ResourceData) (err : GoError)
    (h : conn.GetSecretValue (selectVersion d).1 = Except.error err) :
    (∃ summary, (dataSourceSecretVersionRead env conn d).diags =
        [{ Severity := diag.Severity.Error, Summary := summary }]) ∧
    (dataSourceSecretVersionRead env conn d).d = d := by
  by_cases h1 : tfawserr.ErrCodeEquals err env.errCodeResourceNotFoundException = true
  · rw [read_notFound env conn d err h (Or.inl h1)]
    exact ⟨⟨_, rfl⟩, rfl⟩
  · by_cases h2 : tfawserr.ErrMessageContains err env.errCodeInvalidRequestException "You can't perform this operation on the secret because it was deleted"
        = true
    · rw [read_notFound env conn d err h (Or.inr h2)]
      exact ⟨⟨_, rfl⟩, rfl⟩
    · rw [read_upstream env conn d err h (Bool.eq_false_iff.mpr h1) (Bool.eq_false_iff.mpr h2)]
      exact ⟨⟨_, rfl⟩, rfl⟩

/-- A failed read of `db/prod` leaves every written slot empty. -/
theorem failure_writes_nothing_witness :
    (∃ summary, (dataSourceSecretVersionRead exampleEnv (failingClient exampleInvalid)
        (ResourceData.ofConfig "db/prod" none none)).diags =
        [{ Severity := diag.Severity.Error, Summary := summary }]) ∧
    (dataSourceSecretVersionRead exampleEnv (failingClient exampleInvalid)
        (ResourceData.ofConfig "db/prod" none none)).d =
      { config_secret_id := "db/prod", config_version_id := none, config_version_stage := none,
        Id := none, arn := none, secret_id := none, secret_string := none,
        secret_binary := none, version_id := none, version_stages := none } :=
  failure_writes_nothing exampleEnv (failingClient exampleInvalid)
    (ResourceData.ofConfig "db/prod" none none) exampleInvalid rfl

/-- C10: for every query whose `version_id` is the empty string, the read
treats `version_id` as absent: the one request carries `VersionStage` equal to
`version_stage` (the schema default when that argument is absent) and no
`VersionId`; the id assigned on success and the not-found diagnostic carry the
`version_stage` label. -/
theorem empty_version_id_is_absent (env : Env) (conn : Client) (d : ResourceData)
    (hv : d.config_version_id = some "") :
    (dataSourceSecretVersionRead env conn d).requests =
      [{ SecretId := some d.config_secret_id, VersionId := none,
         VersionStage := some (d.config_version_stage.getD "AWSCURRENT") }] ∧
    (∀ output, conn.GetSecretValue (selectVersion d).1 = Except.ok output →
      (dataSourceSecretVersionRead env conn d).d.Id =
        some (d.config_secret_id ++ "|" ++ d.config_version_stage.getD "AWSCURRENT")) ∧
    (∀ err, conn.GetSecretValue (selectVersion d).1 = Except.error err →
      (tfawserr.ErrCodeEquals err env.errCodeResourceNotFoundException = true ∨
        tfawserr.ErrMessageContains err env.errCodeInvalidRequestException "You can't perform this operation on the secret because it was deleted" = true) →
      (dataSourceSecretVersionRead env conn d).diags =
        [{ Severity := diag.Severity.Error
           Summary := "Secrets Manager Secret " ++ env.quote d.config_secret_id
             ++ " Version " ++ env.quote (d.config_version_stage.getD "AWSCURRENT")
             ++ " not found" }]) := by
  have hsel : effectiveSelector d = d.config_version_stage.getD "AWSCURRENT" := by
    simp [effectiveSelector, hv]
  refine ⟨by rw [read_requests, selectVersion_empty d hv], ?_, ?_⟩
  · intro output h
    rw [read_ok env conn d output h, hsel]
  · intro err h hc
    rw [read_notFound env conn d err h hc, hsel]

/-- The query with `version_id = ""` and `version_stage = "AWSPREVIOUS"` is looked up by stage. -/
theorem empty_version_id_is_absent_witness :
    (dataSourceSecretVersionRead exampleEnv (answeringClient exampleOutput)
        (ResourceData.ofConfig "db/prod" (some "") (some "AWSPREVIOUS"))).requests =
      [{ SecretId := some "db/prod", VersionId := none, VersionStage := some "AWSPREVIOUS" }] ∧
    (dataSourceSecretVersionRead exampleEnv (answeringClient exampleOutput)
        (ResourceData.ofConfig "db/prod" (some "") (some "AWSPREVIOUS"))).d.Id =
      some "db/prod|AWSPREVIOUS" :=
  ⟨(empty_version_id_is_absent exampleEnv (answeringClient exampleOutput)
      (ResourceData.ofConfig "db/prod" (some "") (some "AWSPREVIOUS")) rfl).1,
   (empty_version_id_is_absent exampleEnv (answeringClient exampleOutput)
      (ResourceData.ofConfig "db/prod" (some "") (some "AWSPREVIOUS")) rfl).2.1 exampleOutput rfl⟩

end secretsmanager
